import Mathlib

/-!
Shallow embedding of the ragflow document-lifecycle handlers:
`api/apps/document_app.py` (change_status, rm, run, rename, change_parser),
`api/apps/kb_app.py` (update, rm) and the background progress loop of
`api/ragflow_server.py`.

Each external collaborator call (Metadata Store, Blob Store, Index Store,
Task Queue) is modelled as an explicit transition on a `State` record plus an
appended `Event`; outcomes of service calls whose implementation lies outside
the embedded files (`accessible`, `get_tenant_id`, `get_storage_address`,
whether a store call raises, ...) are injected through environment records,
so the handlers stay faithful to the Python control flow while every failure
mode the source can exhibit remains expressible.
-/

namespace Ragflow

/-- Metadata Store row for a Document (`Document` model fields used by the
embedded handlers). `process_duation` keeps the source spelling. -/
structure DocRec where
  id : String
  kb_id : String
  name : String
  parser_id : String
  parser_config : String
  type : String
  location : String
  size : Int
  status : String
  run : String
  progress : Int
  progress_msg : String
  chunk_num : Int
  token_num : Int
  process_duation : Int
deriving Repr, DecidableEq

/-- Metadata Store row for a KnowledgeBase. -/
structure KbRec where
  id : String
  tenant_id : String
  name : String
  parser_id : String
  parser_config : String
  pagerank : Int
deriving Repr, DecidableEq

/-- Metadata Store row for a Task (one parse work unit, `doc_id` foreign key). -/
structure TaskRec where
  id : String
  doc_id : String
deriving Repr, DecidableEq

/-- Metadata Store row for a File in the virtual-filesystem overlay. -/
structure FileRec where
  id : String
  name : String
  source_type : String
  type : String
deriving Repr, DecidableEq

/-- File-Document link row. -/
structure F2DRec where
  file_id : String
  document_id : String
deriving Repr, DecidableEq

/-- One Index Store entry (a chunk document), scoped by tenant index name and
knowledge base, carrying the two patchable fields the handlers touch. -/
structure IdxEntry where
  idx : String
  kb_id : String
  doc_id : String
  available : Option Int
  pagerank : Option Int
deriving Repr, DecidableEq

/-- The four stores plus queue, as one explicit state. `indices` is the set of
existing tenant-scoped index names, `queue` the task queue contents, `blobs`
the (bucket, key) pairs present in the Blob Store. -/
structure State where
  docs : List DocRec
  kbs : List KbRec
  tasks : List TaskRec
  files : List FileRec
  f2ds : List F2DRec
  index : List IdxEntry
  indices : List String
  queue : List String
  blobs : List (String × String)
deriving Repr, DecidableEq

/-- Observable store operations, in issue order. Read events are recorded for
`change_status` (where C10 needs them); mutation, index and queue operations
are recorded everywhere. -/
inductive Event where
  | read (what : String)
  | statusWrite (doc_id status : String)
  | nameWrite (doc_id name : String)
  | fileNameWrite (file_id name : String)
  | parserReset (doc_id parser_id : String)
  | parserConfigWrite (doc_id cfg : String)
  | incChunkNum (doc_id : String) (tok chunk dur : Int)
  | runInfoWrite (doc_id run : String) (cleared : Bool)
  | kbRowUpdate (kb_id : String)
  | deleteTasks (doc_id : String)
  | deleteDocRow (doc_id : String)
  | deleteFileRow (file_id : String)
  | deleteF2DLink (doc_id : String)
  | deleteKbFolderRow (name : String)
  | deleteKbRow (kb_id : String)
  | rmBlob (bucket key : String)
  | idxPatchAvailable (doc_id : String) (v : Int)
  | idxPatchPagerank (kb_id : String) (v : Int)
  | idxRemovePagerank (kb_id : String)
  | idxDeleteDoc (doc_id : String)
  | idxDeleteKb (kb_id : String)
  | dropIdx (kb_id : String)
  | enqueueTask (doc_id : String)
deriving Repr, DecidableEq

/-- HTTP-level outcomes of a handler (`get_json_result` success,
ARGUMENT_ERROR, AUTHENTICATION_ERROR, OPERATING_ERROR, `get_data_error_result`,
`server_error_response` / SERVER_ERROR). -/
inductive ApiResult where
  | ok
  | argErr (msg : String)
  | authErr
  | opErr (msg : String)
  | dataErr (msg : String)
  | serverErr (msg : String)
deriving Repr, DecidableEq

/-- Modelled from the spec: the per-tenant index namespace
(`search.index_name`, whose module is not part of the embedded sources) is a
name determined by the tenant id. -/
def index_name (tenant_id : String) : String := "ragflow_" ++ tenant_id

/-- Modelled from the spec: the `run` state values of `TaskStatus`
(unstart | running | cancelled | done | fail); the handlers only compare them
for string equality. -/
def runningValue : String := "1"

/-- Modelled from the spec: `TaskStatus.UNSTART.value`. -/
def unstartValue : String := "0"

/-- Modelled from the spec: `FileSource.KNOWLEDGEBASE`, the source tag of the
knowledge-base-private File rows. -/
def knowledgebaseSource : String := "knowledgebase"

/-- `DocumentService.get_by_id` on the embedded state. -/
def findDoc (s : State) (id : String) : Option DocRec :=
  s.docs.find? (fun d => d.id == id)

/-- `KnowledgebaseService.get_by_id` on the embedded state. -/
def findKb (s : State) (id : String) : Option KbRec :=
  s.kbs.find? (fun k => k.id == id)

/-- `FileService.get_by_id` on the embedded state. -/
def findFile (s : State) (id : String) : Option FileRec :=
  s.files.find? (fun f => f.id == id)

/-- `File2DocumentService.get_by_document_id` on the embedded state. -/
def linksOf (s : State) (doc_id : String) : List F2DRec :=
  s.f2ds.filter (fun l => l.document_id == doc_id)

/-- `DocumentService.update_by_id(id, status)` restricted to the status field. -/
def setDocStatus (s : State) (id status : String) : State :=
  { s with docs := s.docs.map (fun d => if d.id = id then { d with status := status } else d) }

/-- Index Store `update({doc_id}, {available_int}, idx, kb_id)`. -/
def idxSetAvailable (s : State) (idx kb_id doc_id : String) (v : Int) : State :=
  { s with index := s.index.map (fun e =>
      if e.idx = idx ∧ e.kb_id = kb_id ∧ e.doc_id = doc_id then { e with available := some v } else e) }

/-- The status string of a document row, when present. -/
def docStatus (s : State) (id : String) : Option String :=
  (findDoc s id).map (fun d => d.status)

/-- Environment for `change_status`: outcomes of the calls implemented outside
the embedded file (`DocumentService.accessible`, whether `update_by_id`
reports success, whether the Index Store `update` raises). -/
structure CsEnv where
  accessibleOk : Bool
  updateOk : Bool
  idxRaises : Bool
deriving Repr, DecidableEq

/-- `int(status)` for a status string already validated to be "0" or "1". -/
def statusInt (status : String) : Int := if status = "1" then 1 else 0

/-- `change_status` handler of `api/apps/document_app.py`: validates the
status string against "0"/"1", checks access, loads the document and its
knowledge base, writes the Metadata row, then issues the Index Store
`available_int` patch. A raising patch is caught by the surrounding
try/except and turned into a server error with no compensating write. -/
def change_status (s : State) (env : CsEnv) (doc_id status : String) :
    ApiResult × State × List Event :=
  if status ≠ "0" ∧ status ≠ "1" then
    (.argErr "Status must be either 0 or 1!", s, [])
  else if env.accessibleOk = false then
    (.authErr, s, [.read "accessible"])
  else
    match findDoc s doc_id with
    | none => (.dataErr "Document not found!", s, [.read "accessible", .read "document"])
    | some doc =>
      match findKb s doc.kb_id with
      | none =>
        (.dataErr "Cant find this knowledgebase!", s,
          [.read "accessible", .read "document", .read "knowledgebase"])
      | some kb =>
        if env.updateOk = false then
          (.dataErr "Database error (Document update)!", s,
            [.read "accessible", .read "document", .read "knowledgebase"])
        else
          let s1 := setDocStatus s doc_id status
          let evs := [Event.read "accessible", Event.read "document",
            Event.read "knowledgebase", Event.statusWrite doc_id status,
            Event.idxPatchAvailable doc_id (statusInt status)]
          if env.idxRaises then
            (.serverErr "doc store update failed", s1, evs)
          else
            (.ok, idxSetAvailable s1 (index_name kb.tenant_id) doc.kb_id doc_id (statusInt status),
              evs)

/-- Events of the run handler that concern one given document: its Task
deletion, its Index Store deletion, its enqueue. -/
def relEvent (id : String) : Event → Bool
  | .deleteTasks d => d == id
  | .idxDeleteDoc d => d == id
  | .enqueueTask d => d == id
  | _ => false

/-- Whether an event is a Task enqueue. -/
def isEnqEvent : Event → Bool
  | .enqueueTask _ => true
  | _ => false

/-- Whether an event is a Task-row deletion. -/
def isDelTasksEvent : Event → Bool
  | .deleteTasks _ => true
  | _ => false

/-- Once an enqueue occurs, nothing but enqueues may follow (no deletion is
issued after an enqueue). -/
def delsBeforeEnqs : List Event → Bool
  | [] => true
  | e :: rest => if isEnqEvent e then rest.all isEnqEvent else delsBeforeEnqs rest

/-- The clear-history discipline on a per-document event list: deletions all
precede any enqueue, and an enqueue is preceded by a Task deletion. -/
def clearedBeforeEnqueue (l : List Event) : Bool :=
  delsBeforeEnqs l && (!(l.any isEnqEvent) || l.any isDelTasksEvent)

/-- Events of the per-document row cascade of the kb rm loop. -/
def isPerDocRowEvent : Event → Bool
  | .deleteDocRow _ => true
  | .deleteFileRow _ => true
  | .deleteF2DLink _ => true
  | _ => false

/-- Whether an event is a blob removal. -/
def isRmBlobEvent : Event → Bool
  | .rmBlob _ _ => true
  | _ => false

/-- ASCII lowercasing of a string, written over the character list so that
it evaluates inside the kernel (`str.lower()` on the names the handlers
compare). -/
def strLower (s : String) : String := String.mk (s.data.map Char.toLower)

/-- Split a character list on '/'. -/
def splitSlash : List Char → List (List Char)
  | [] => [[]]
  | c :: rest =>
    let r := splitSlash rest
    if c = '/' then [] :: r
    else
      match r with
      | [] => [[c]]
      | g :: gs => (c :: g) :: gs

/-- Whether `l` ends with `suf`, over character lists. -/
def endsWithL (l suf : List Char) : Bool :=
  decide (suf.length ≤ l.length) && l.drop (l.length - suf.length) == suf

/-- Index of the last '.' in a list of characters, when one occurs. -/
def lastDot : List Char → Option Nat
  | [] => none
  | c :: rest =>
    match lastDot rest with
    | some i => some (i + 1)
    | none => if c = '.' then some 0 else none

/-- Final nonempty path component, as `pathlib.Path(s).name` computes it. -/
def pathName (s : String) : String :=
  String.mk (((splitSlash s.data).filter (fun p => p ≠ [])).getLast?.getD [])

/-- `pathlib.Path(s).suffix`: the substring of the final component from its
last dot, provided that dot is neither the first nor the last character. -/
def pySuffix (s : String) : String :=
  let cs := (pathName s).data
  match lastDot cs with
  | none => ""
  | some i => if 0 < i ∧ i + 1 < cs.length then String.mk (cs.drop i) else ""

/-- `DocumentService.query(name=..., kb_id=...)`: the Metadata Store name
lookup is collation-insensitive to case; the handler then confirms an exact
match itself. -/
def queryByName (s : State) (name kb_id : String) : List DocRec :=
  s.docs.filter (fun d => d.kb_id == kb_id && strLower d.name == strLower name)

/-- `DocumentService.update_by_id(id, name)` restricted to the name field. -/
def setDocName (s : State) (id name : String) : State :=
  { s with docs := s.docs.map (fun d => if d.id = id then { d with name := name } else d) }

/-- `FileService.update_by_id(id, name)` restricted to the name field. -/
def setFileName (s : State) (id name : String) : State :=
  { s with files := s.files.map (fun f => if f.id = id then { f with name := name } else f) }

/-- Environment for `rename`: accessibility outcome and whether the Metadata
row update reports success. -/
structure RenEnv where
  accessibleOk : Bool
  updateOk : Bool
deriving Repr, DecidableEq

/-- `rename` handler of `api/apps/document_app.py`: rejects a change of the
file-extension suffix (computed on the lowercased names), rejects an exact
duplicate name in the same KB, updates the Document row, then renames the
File record behind the first File-Document link when one exists. A missing
File row makes the subsequent attribute access raise, which the surrounding
try/except converts to a server error. -/
def rename (s : State) (env : RenEnv) (doc_id newName : String) :
    ApiResult × State × List Event :=
  if env.accessibleOk = false then (.authErr, s, [])
  else
    match findDoc s doc_id with
    | none => (.dataErr "Document not found!", s, [])
    | some doc =>
      if pySuffix (strLower newName) ≠ pySuffix (strLower doc.name) then
        (.argErr "The extension of file cant be changed", s, [])
      else if (queryByName s newName doc.kb_id).any (fun d => d.name == newName) then
        (.dataErr "Duplicated document name in the same knowledgebase.", s, [])
      else if env.updateOk = false then
        (.dataErr "Database error (Document rename)!", s, [])
      else
        let s1 := setDocName s doc_id newName
        let ev1 := [Event.nameWrite doc_id newName]
        match linksOf s doc_id with
        | [] => (.ok, s1, ev1)
        | l :: _ =>
          match findFile s l.file_id with
          | none => (.serverErr "attribute error on missing file", s1, ev1)
          | some f =>
            (.ok, setFileName s1 f.id newName, ev1 ++ [Event.fileNameWrite f.id newName])

/-- `TaskService.filter_delete([Task.doc_id == doc_id])`. -/
def delTasks (s : State) (doc_id : String) : State :=
  { s with tasks := s.tasks.filter (fun t => t.doc_id ≠ doc_id) }

/-- Modelled from the spec: `DocumentService.remove_document` (implemented in
`api/db/services/document_service.py`, which is not among the embedded
sources) deletes the Metadata row of the document. -/
def delDocRow (s : State) (doc_id : String) : State :=
  { s with docs := s.docs.filter (fun d => d.id ≠ doc_id) }

/-- `FileService.filter_delete([source_type == KNOWLEDGEBASE, id == file_id])`. -/
def delKbFileRow (s : State) (file_id : String) : State :=
  { s with files :=
      s.files.filter (fun f => !(f.source_type == knowledgebaseSource && f.id == file_id)) }

/-- `File2DocumentService.delete_by_document_id(doc_id)`. -/
def delLinks (s : State) (doc_id : String) : State :=
  { s with f2ds := s.f2ds.filter (fun l => l.document_id ≠ doc_id) }

/-- `STORAGE_IMPL.rm(bucket, key)`. -/
def rmBlobSt (s : State) (bucket key : String) : State :=
  { s with blobs := s.blobs.filter (fun b => b ≠ (bucket, key)) }

/-- Per-document environment for the document `rm` handler: outcomes of the
service calls implemented outside the embedded file. `storageAddr` is the
`(bucket, key)` resolved by `File2DocumentService.get_storage_address`, or a
raise; `removeDoc` is `DocumentService.remove_document` returning a boolean
or raising; the remaining flags say whether the corresponding store call
raises. -/
structure RmDocEnv where
  tenantFound : Bool
  storageAddr : Except String (String × String)
  taskDelRaises : Bool
  removeDoc : Except String Bool
  fileDelRaises : Bool
  linkDelRaises : Bool
  blobRaises : Bool

/-- Outcome of one document inside the `rm` loop: finish normally, abort the
whole handler with an early return, or raise (the exception text is appended
to the accumulated errors and the loop continues). -/
inductive DocOutcome where
  | ok
  | abort (r : ApiResult)
  | raised (msg : String)
deriving Repr, DecidableEq

/-- One iteration of the per-document loop in the `rm` handler of
`api/apps/document_app.py`: load the document, resolve tenant and storage
address, delete Tasks, delete the Metadata row, delete the
knowledge-base-private File row behind the first link, delete the
File-Document links, then remove the blob. `get_data_error_result` returns
abort the batch; exceptions are recorded as raised. An empty link list makes
the `f2d[0]` subscript raise. Events are appended when the corresponding
store call is issued, whether or not it raises. -/
def rmOneDoc (s : State) (env : RmDocEnv) (doc_id : String) :
    DocOutcome × State × List Event :=
  match findDoc s doc_id with
  | none => (.abort (.dataErr "Document not found!"), s, [])
  | some _ =>
    if env.tenantFound = false then (.abort (.dataErr "Tenant not found!"), s, [])
    else
      match env.storageAddr with
      | .error m => (.raised m, s, [])
      | .ok (b, n) =>
        if env.taskDelRaises then (.raised "task delete failed", s, [.deleteTasks doc_id])
        else
          let s1 := delTasks s doc_id
          match env.removeDoc with
          | .error m => (.raised m, s1, [.deleteTasks doc_id, .deleteDocRow doc_id])
          | .ok false =>
            (.abort (.dataErr "Database error (Document removal)!"), s1,
              [.deleteTasks doc_id, .deleteDocRow doc_id])
          | .ok true =>
            let s2 := delDocRow s1 doc_id
            match linksOf s doc_id with
            | [] => (.raised "list index out of range", s2,
                [.deleteTasks doc_id, .deleteDocRow doc_id])
            | l :: _ =>
              if env.fileDelRaises then
                (.raised "file delete failed", s2,
                  [.deleteTasks doc_id, .deleteDocRow doc_id, .deleteFileRow l.file_id])
              else
                let s3 := delKbFileRow s2 l.file_id
                if env.linkDelRaises then
                  (.raised "link delete failed", s3,
                    [.deleteTasks doc_id, .deleteDocRow doc_id, .deleteFileRow l.file_id,
                      .deleteF2DLink doc_id])
                else
                  let s4 := delLinks s3 doc_id
                  if env.blobRaises then
                    (.raised "blob remove failed", s4,
                      [.deleteTasks doc_id, .deleteDocRow doc_id, .deleteFileRow l.file_id,
                        .deleteF2DLink doc_id, .rmBlob b n])
                  else
                    (.ok, rmBlobSt s4 b n,
                      [.deleteTasks doc_id, .deleteDocRow doc_id, .deleteFileRow l.file_id,
                        .deleteF2DLink doc_id, .rmBlob b n])

/-- The batch loop of the `rm` handler: per-document exceptions are
concatenated into `errors` and the loop continues; an abort returns its
result immediately; at the end the joined errors are returned as one
SERVER_ERROR when nonempty. -/
def rmLoop (envf : String → RmDocEnv) :
    List String → State → String → List Event → ApiResult × State × List Event
  | [], s, errors, evs =>
    (if errors = "" then .ok else .serverErr errors, s, evs)
  | id :: rest, s, errors, evs =>
    match rmOneDoc s (envf id) id with
    | (.abort r, s', ev) => (r, s', evs ++ ev)
    | (.raised m, s', ev) => rmLoop envf rest s' (errors ++ m) (evs ++ ev)
    | (.ok, s', ev) => rmLoop envf rest s' errors (evs ++ ev)

/-- `rm` handler of `api/apps/document_app.py`: after the accessibility check
over all requested ids, runs the per-document cleanup loop with error
accumulation. -/
def rmDocs (s : State) (allAccessible : Bool) (envf : String → RmDocEnv)
    (doc_ids : List String) : ApiResult × State × List Event :=
  if allAccessible = false then (.authErr, s, [])
  else rmLoop envf doc_ids s "" []

/-- Simulation of whether the `rm` loop ever hits an aborting early return. -/
def abortFree (envf : String → RmDocEnv) : List String → State → Bool
  | [], _ => true
  | id :: rest, s =>
    match rmOneDoc s (envf id) id with
    | (.abort _, _, _) => false
    | (_, s', _) => abortFree envf rest s'

/-- Best-effort reference semantics for the `rm` batch: every document is
processed, each raised message is concatenated, every event is kept. -/
def rmSpec (envf : String → RmDocEnv) : List String → State → String × State × List Event
  | [], s => ("", s, [])
  | id :: rest, s =>
    let r := rmOneDoc s (envf id) id
    let m := match r.1 with
      | .raised msg => msg
      | _ => ""
    let rest' := rmSpec envf rest r.2.1
    (m ++ rest'.1, rest'.2.1, r.2.2 ++ rest'.2.2)

/-- `DocumentService.update_by_id(id, info)` of the run handler: sets `run`
and zeroes `progress`; when requeuing with history clearing also zeroes
`progress_msg`, `chunk_num`, `token_num`. A missing row updates nothing. -/
def setRunInfo (s : State) (id runv : String) (clear : Bool) : State :=
  { s with docs := s.docs.map (fun d =>
      if d.id = id then
        (if clear then
          { d with run := runv, progress := 0, progress_msg := "", chunk_num := 0, token_num := 0 }
        else { d with run := runv, progress := 0 })
      else d) }

/-- Index Store `delete({doc_id}, idx, kb_id)`. -/
def idxDeleteDocSt (s : State) (idx kb_id doc_id : String) : State :=
  { s with index :=
      s.index.filter (fun e => !(e.idx == idx && e.kb_id == kb_id && e.doc_id == doc_id)) }

/-- Index Store `indexExist(name, kb_id)` on the embedded state. -/
def indexExist (s : State) (name : String) : Bool :=
  s.indices.contains name

/-- Modelled from the spec: `queue_tasks(doc, bucket, name)` (implemented in
`api/db/services/task_service.py`, which is not among the embedded sources)
enqueues a new Task carrying a snapshot of the document onto the Task
Queue. -/
def queueTasks (s : State) (doc_id : String) : State :=
  { s with queue := s.queue ++ [doc_id] }

/-- Per-document environment for the run handler: `tenant` is
`DocumentService.get_tenant_id`, `storageAddr` is
`File2DocumentService.get_storage_address`, or a raise. -/
structure RunDocEnv where
  tenant : Option String
  storageAddr : Except String (String × String)

/-- One iteration of the loop in the `run` handler of
`api/apps/document_app.py`: writes the run/progress info, resolves tenant and
document, then — when history clearing is requested — deletes the Tasks of
the document and, when the tenant index exists, the Index Store entries
filtered by doc_id; finally, when the desired run state is RUNNING, resolves
the blob address and enqueues a new Task. `none` means the loop continues;
`some r` aborts the whole handler with `r` (a raise inside the loop is
caught by the outer try/except and surfaces as a server error). -/
def runOneDoc (s : State) (env : RunDocEnv) (runArg : String) (del : Bool) (id : String) :
    Option ApiResult × State × List Event :=
  let clear := runArg == runningValue && del
  let s0 := setRunInfo s id runArg clear
  let ev0 := [Event.runInfoWrite id runArg clear]
  match env.tenant with
  | none => (some (.dataErr "Tenant not found!"), s0, ev0)
  | some tenant_id =>
    match findDoc s0 id with
    | none => (some (.dataErr "Document not found!"), s0, ev0)
    | some doc =>
      let afterDel :=
        if del then
          let s1 := delTasks s0 id
          let ev1 := ev0 ++ [Event.deleteTasks id]
          if indexExist s1 (index_name tenant_id) then
            (idxDeleteDocSt s1 (index_name tenant_id) doc.kb_id id,
              ev1 ++ [Event.idxDeleteDoc id])
          else (s1, ev1)
        else (s0, ev0)
      if runArg == runningValue then
        match env.storageAddr with
        | .error m => (some (.serverErr m), afterDel.1, afterDel.2)
        | .ok _ =>
          (none, queueTasks afterDel.1 id, afterDel.2 ++ [Event.enqueueTask id])
      else (none, afterDel.1, afterDel.2)

/-- The loop of the run handler over the requested document ids. -/
def runLoop (envf : String → RunDocEnv) (runArg : String) (del : Bool) :
    List String → State → List Event → ApiResult × State × List Event
  | [], s, evs => (.ok, s, evs)
  | id :: rest, s, evs =>
    match runOneDoc s (envf id) runArg del id with
    | (some r, s', ev) => (r, s', evs ++ ev)
    | (none, s', ev) => runLoop envf runArg del rest s' (evs ++ ev)

/-- `run` handler of `api/apps/document_app.py`. -/
def runDocs (s : State) (allAccessible : Bool) (envf : String → RunDocEnv)
    (runArg : String) (del : Bool) (ids : List String) : ApiResult × State × List Event :=
  if allAccessible = false then (.authErr, s, [])
  else runLoop envf runArg del ids s []

/-- Modelled from the spec: `FileType.VIRTUAL`/`FileType.VISUAL` string
values of the document type enumeration. -/
def visualValue : String := "visual"

/-- The presentation-name test `re.search(r"\.(ppt|pptx|pages)$", name)`. -/
def isPptName (name : String) : Bool :=
  endsWithL name.data ".ppt".data || endsWithL name.data ".pptx".data || endsWithL name.data ".pages".data

/-- `DocumentService.update_by_id` of change_parser: writes the new parser id
and resets `progress`, `progress_msg` and `run`. -/
def resetForReparse (s : State) (id parser_id : String) : State :=
  { s with docs := s.docs.map (fun d =>
      if d.id = id then
        { d with parser_id := parser_id, progress := 0, progress_msg := "", run := unstartValue }
      else d) }

/-- Modelled from the spec: `DocumentService.update_parser_config` (not among
the embedded sources) stores the submitted parser config on the Document
row. -/
def setParserConfig (s : State) (id cfg : String) : State :=
  { s with docs := s.docs.map (fun d => if d.id = id then { d with parser_config := cfg } else d) }

/-- Environment for change_parser: accessibility, whether the two Metadata
writes report success, and the resolved tenant. -/
structure CpEnv where
  accessibleOk : Bool
  updateOk : Bool
  incOk : Bool
  tenant : Option String

/-- `change_parser` handler of `api/apps/document_app.py`: returns success
immediately when the parser id is unchanged (case-insensitively) and the
submitted config, if any, equals the stored one; rejects moving a visual
document away from `picture` or a presentation-named document away from
`presentation`; otherwise resets the document, stores the new config, and —
when the document had tokens — reverses the KB counters and deletes the
Index Store entries of the document when the tenant index exists. -/
def changeParser (s : State) (env : CpEnv) (doc_id parser_id : String)
    (parser_config : Option String) : ApiResult × State × List Event :=
  if env.accessibleOk = false then (.authErr, s, [])
  else
    match findDoc s doc_id with
    | none => (.dataErr "Document not found!", s, [])
    | some doc =>
      if strLower doc.parser_id = strLower parser_id ∧
          (parser_config = none ∨ parser_config = some doc.parser_config) then
        (.ok, s, [])
      else if (doc.type = visualValue ∧ parser_id ≠ "picture") ∨
          (isPptName doc.name = true ∧ parser_id ≠ "presentation") then
        (.dataErr "Not supported yet!", s, [])
      else if env.updateOk = false then
        (.dataErr "Document not found!", s, [Event.parserReset doc_id parser_id])
      else
        let s1 := resetForReparse s doc_id parser_id
        let ev1 := [Event.parserReset doc_id parser_id]
        let withCfg :=
          match parser_config with
          | none => (s1, ev1)
          | some cfg => (setParserConfig s1 doc_id cfg, ev1 ++ [Event.parserConfigWrite doc_id cfg])
        if doc.token_num > 0 then
          let ev2 := withCfg.2 ++
            [Event.incChunkNum doc_id (-doc.token_num) (-doc.chunk_num) (-doc.process_duation)]
          if env.incOk = false then (.dataErr "Document not found!", withCfg.1, ev2)
          else
            match env.tenant with
            | none => (.dataErr "Tenant not found!", withCfg.1, ev2)
            | some tenant_id =>
              if indexExist withCfg.1 (index_name tenant_id) then
                (.ok, idxDeleteDocSt withCfg.1 (index_name tenant_id) doc.kb_id doc_id,
                  ev2 ++ [Event.idxDeleteDoc doc_id])
              else (.ok, withCfg.1, ev2)
        else (.ok, withCfg.1, withCfg.2)

/-- Request body of the kb update handler (the fields its logic reads). -/
structure KbUpdReq where
  name : String
  parser_id : String
  pagerank : Option Int

/-- Environment for the kb update handler. `dupGtOne` is the outcome of the
duplicate-name count query; `tagBlocked` is the Tag-chunk-method-on-Infinity
rejection. -/
structure KbUpdEnv where
  accessibleOk : Bool
  ownerOk : Bool
  tagBlocked : Bool
  dupGtOne : Bool
  updateOk : Bool

/-- `KnowledgebaseService.update_by_id(kb_id, req)`: writes the request
fields onto the KB row; `pagerank` is only written when present in the
request. -/
def kbRowUpdateSt (s : State) (kb_id : String) (req : KbUpdReq) : State :=
  { s with kbs := s.kbs.map (fun k =>
      if k.id = kb_id then
        { k with name := req.name, parser_id := req.parser_id, pagerank := req.pagerank.getD k.pagerank }
      else k) }

/-- Index Store `update({kb_id}, {pagerank: v}, idx, kb_id)`. -/
def idxSetPagerank (s : State) (idx kb_id : String) (v : Int) : State :=
  { s with index := s.index.map (fun e =>
      if e.idx == idx && e.kb_id == kb_id then { e with pagerank := some v } else e) }

/-- Index Store `update({exists: pagerank}, {remove: pagerank}, idx, kb_id)`:
physically removes the pagerank field from the entries that carry it. -/
def idxRemovePagerankSt (s : State) (idx kb_id : String) : State :=
  { s with index := s.index.map (fun e =>
      if e.idx == idx && e.kb_id == kb_id && e.pagerank.isSome then { e with pagerank := none }
      else e) }

/-- `update` handler of `api/apps/kb_app.py`: after the access, ownership,
existence, Tag-method and duplicate-name checks, writes the KB row; then,
when the submitted pagerank (0 when absent) differs from the stored one,
issues either a pagerank upsert (positive value) or a field-removal patch
(zero or negative value) against the Index Store. -/
def kb_update (s : State) (env : KbUpdEnv) (kb_id : String) (req : KbUpdReq) :
    ApiResult × State × List Event :=
  if env.accessibleOk = false then (.authErr, s, [])
  else if env.ownerOk = false then
    (.opErr "Only owner of knowledgebase authorized for this operation.", s, [])
  else
    match findKb s kb_id with
    | none => (.dataErr "Cant find this knowledgebase!", s, [])
    | some kb =>
      if env.tagBlocked then
        (.opErr "The chunk method Tag has not been supported by Infinity yet.", s, [])
      else if strLower req.name ≠ strLower kb.name ∧ env.dupGtOne then
        (.dataErr "Duplicated knowledgebase name.", s, [])
      else if env.updateOk = false then (.dataErr "", s, [])
      else
        let s1 := kbRowUpdateSt s kb_id req
        let ev1 := [Event.kbRowUpdate kb_id]
        if kb.pagerank ≠ req.pagerank.getD 0 then
          if req.pagerank.getD 0 > 0 then
            (.ok, idxSetPagerank s1 (index_name kb.tenant_id) kb.id (req.pagerank.getD 0),
              ev1 ++ [Event.idxPatchPagerank kb.id (req.pagerank.getD 0)])
          else
            (.ok, idxRemovePagerankSt s1 (index_name kb.tenant_id) kb.id,
              ev1 ++ [Event.idxRemovePagerank kb.id])
        else (.ok, s1, ev1)

/-- `DocumentService.query(kb_id=...)`: the documents of a KB. -/
def docsOfKb (s : State) (kb_id : String) : List DocRec :=
  s.docs.filter (fun d => d.kb_id == kb_id)

/-- `FileService.filter_delete` of the KB-private root folder File row. -/
def delKbFolderRow (s : State) (name : String) : State :=
  { s with files := s.files.filter (fun f =>
      !(f.source_type == knowledgebaseSource && f.type == "folder" && f.name == name)) }

/-- `KnowledgebaseService.delete_by_id(kb_id)`. -/
def delKbRowSt (s : State) (kb_id : String) : State :=
  { s with kbs := s.kbs.filter (fun k => k.id ≠ kb_id) }

/-- Index Store `delete({kb_id}, idx, kb_id)`. -/
def idxDeleteKbSt (s : State) (idx kb_id : String) : State :=
  { s with index := s.index.filter (fun e => !(e.idx == idx && e.kb_id == kb_id)) }

/-- Index Store `deleteIdx(idx, kb_id)`: drops the tenant-scoped index. -/
def dropIdxSt (s : State) (idx : String) : State :=
  { s with indices := s.indices.filter (fun n => n ≠ idx) }

/-- Environment for the kb `rm` handler: accessibility, ownership, the
per-document `remove_document` outcome, and whether the KB row delete
reports success. -/
structure KbRmEnv where
  accessibleOk : Bool
  ownerOk : Bool
  removeDoc : String → Except String Bool
  kbDeleteOk : Bool

/-- The per-document loop of the kb `rm` handler: for each Document of the
KB, delete its Metadata row, then — when a File-Document link exists — the
knowledge-base-private File row behind the first link, then the links
themselves. No Task rows and no blobs are touched here. `some r` aborts the
handler. -/
def kbRmLoop (envRemove : String → Except String Bool) :
    List DocRec → State → List Event → Option ApiResult × State × List Event
  | [], s, evs => (none, s, evs)
  | d :: rest, s, evs =>
    match envRemove d.id with
    | .error m => (some (.serverErr m), s, evs ++ [Event.deleteDocRow d.id])
    | .ok false =>
      (some (.dataErr "Database error (Document removal)!"), s,
        evs ++ [Event.deleteDocRow d.id])
    | .ok true =>
      let s1 := delDocRow s d.id
      match linksOf s1 d.id with
      | [] =>
        kbRmLoop envRemove rest (delLinks s1 d.id)
          (evs ++ [Event.deleteDocRow d.id, Event.deleteF2DLink d.id])
      | l :: _ =>
        kbRmLoop envRemove rest (delLinks (delKbFileRow s1 l.file_id) d.id)
          (evs ++ [Event.deleteDocRow d.id, Event.deleteFileRow l.file_id,
            Event.deleteF2DLink d.id])

/-- `rm` handler of `api/apps/kb_app.py`: deletes the rows of every Document
of the KB (with File rows and links), then the KB-private root folder File
row, then the KB Metadata row, then all Index Store entries of the KB, and
finally drops the tenant-scoped index. -/
def kb_rm (s : State) (env : KbRmEnv) (kb_id : String) : ApiResult × State × List Event :=
  if env.accessibleOk = false then (.authErr, s, [])
  else
    match findKb s kb_id with
    | none => (.opErr "Only owner of knowledgebase authorized for this operation.", s, [])
    | some kb =>
      if env.ownerOk = false then
        (.opErr "Only owner of knowledgebase authorized for this operation.", s, [])
      else
        match kbRmLoop env.removeDoc (docsOfKb s kb_id) s [] with
        | (some r, s', evs) => (r, s', evs)
        | (none, s', evs) =>
          let s2 := delKbFolderRow s' kb.name
          let ev2 := evs ++ [Event.deleteKbFolderRow kb.name]
          if env.kbDeleteOk = false then
            (.dataErr "Database error (Knowledgebase removal)!", s2, ev2)
          else
            let s3 := delKbRowSt s2 kb_id
            let s4 := idxDeleteKbSt s3 (index_name kb.tenant_id) kb.id
            let s5 := dropIdxSt s4 (index_name kb.tenant_id)
            (.ok, s5,
              ev2 ++ [Event.deleteKbRow kb_id, Event.idxDeleteKb kb.id, Event.dropIdx kb.id])

/-- A fully succeeding per-document environment for document `rm`
witnesses. -/
def wEnvRm : RmDocEnv :=
  { tenantFound := true, storageAddr := .ok ("k1", "a.pdf"), taskDelRaises := false,
    removeDoc := .ok true, fileDelRaises := false, linkDelRaises := false,
    blobRaises := false }

/-- A fully succeeding environment for kb `rm` witnesses. -/
def wEnvKbRm : KbRmEnv :=
  { accessibleOk := true, ownerOk := true, removeDoc := fun _ => .ok true,
    kbDeleteOk := true }

/-- A fully succeeding per-document environment for `run` witnesses. -/
def wEnvRun : RunDocEnv :=
  { tenant := some "t1", storageAddr := .ok ("k1", "a.pdf") }

/-- Outcome of one `DocumentService.update_progress()` call inside a Sweeper
tick: normal completion or an exception. -/
inductive TickOutcome where
  | ok
  | raises (msg : String)
deriving Repr, DecidableEq

/-- Observable steps of the Sweeper loop of `api/ragflow_server.py`, indexed
by the iteration that produced them. -/
inductive SweepEvent where
  | updateProgress (i : Nat)
  | waited (i : Nat)
  | logged (i : Nat) (msg : String)
deriving Repr, DecidableEq

/-- The `update_progress` loop of `api/ragflow_server.py`: while the shared
stop event is not set, run one tick — `DocumentService.update_progress()`
then a 6-second wait, with any exception logged by the surrounding
try/except and the loop continuing. `stop i` is the value of
`stop_event.is_set()` at the check of iteration `i`, `tick i` the outcome of
the call in iteration `i`. Runs at most `fuel` iterations starting from
iteration `i`; returns the iteration at which the loop exited (`none` when
the fuel ran out with the loop still going) together with the trace. -/
def sweeperLoop (stop : Nat → Bool) (tick : Nat → TickOutcome) :
    Nat → Nat → Option Nat × List SweepEvent
  | 0, _ => (none, [])
  | fuel + 1, i =>
    if stop i then (some i, [])
    else
      let ev := match tick i with
        | .ok => [SweepEvent.updateProgress i, SweepEvent.waited i]
        | .raises m => [SweepEvent.updateProgress i, SweepEvent.logged i m]
      let r := sweeperLoop stop tick fuel (i + 1)
      (r.1, ev ++ r.2)

/-- Sample document row used by concrete witnesses. -/
def wDoc : DocRec :=
  { id := "d1", kb_id := "k1", name := "a.pdf", parser_id := "naive",
    parser_config := "cfg", type := "pdf", location := "a.pdf", size := 10,
    status := "1", run := "0", progress := 0, progress_msg := "",
    chunk_num := 2, token_num := 5, process_duation := 1 }

/-- Sample knowledge-base row used by concrete witnesses. -/
def wKb : KbRec :=
  { id := "k1", tenant_id := "t1", name := "K1", parser_id := "naive",
    parser_config := "cfg", pagerank := 5 }

/-- Sample state used by concrete witnesses: one KB, one document with a
task, a private File row and link, one index entry and one blob. -/
def wState : State :=
  { docs := [wDoc], kbs := [wKb], tasks := [⟨"t1", "d1"⟩],
    files := [⟨"f1", "a.pdf", "knowledgebase", "doc"⟩], f2ds := [⟨"f1", "d1"⟩],
    index := [⟨"ragflow_t1", "k1", "d1", some 1, some 5⟩],
    indices := ["ragflow_t1"], queue := [], blobs := [("k1", "a.pdf")] }

theorem find?_map_status (l : List DocRec) (id st : String) :
    (l.map (fun d => if d.id = id then { d with status := st } else d)).find?
        (fun d => d.id == id)
      = (l.find? (fun d => d.id == id)).map (fun d => { d with status := st }) := by
  induction l with
  | nil => rfl
  | cons d rest ih =>
    by_cases h : d.id = id
    · simp [List.find?_cons, h]
    · have hb : (d.id == id) = false := by simpa using h
      simp only [List.map_cons, List.find?_cons, if_neg h, hb, cond_false]
      exact ih

theorem findDoc_setDocStatus (s : State) (id st : String) :
    findDoc (setDocStatus s id st) id = (findDoc s id).map (fun d => { d with status := st }) :=
  find?_map_status s.docs id st

theorem find?_map_if {α : Type} (key : α → String) (id : String) (upd : α → α)
    (hkey : ∀ a, key (upd a) = key a) (l : List α) :
    (l.map (fun a => if key a = id then upd a else a)).find? (fun a => key a == id)
      = (l.find? (fun a => key a == id)).map upd := by
  induction l with
  | nil => rfl
  | cons a rest ih =>
    by_cases h : key a = id
    · simp [List.find?_cons, h, hkey]
    · have hb : (key a == id) = false := by simpa using h
      simp only [List.map_cons, List.find?_cons, if_neg h, hb, cond_false]
      exact ih

theorem findDoc_setDocName (s : State) (id nm : String) :
    findDoc (setDocName s id nm) id = (findDoc s id).map (fun d => { d with name := nm }) := by
  unfold findDoc setDocName
  exact find?_map_if (fun d => d.id) id (fun d => { d with name := nm }) (fun _ => rfl) s.docs

theorem findFile_setFileName (s : State) (id nm : String) :
    findFile (setFileName s id nm) id = (findFile s id).map (fun f => { f with name := nm }) := by
  unfold findFile setFileName
  exact find?_map_if (fun f => f.id) id (fun f => { f with name := nm }) (fun _ => rfl) s.files

/-- C3: ChangeStatus writes the new status to the Metadata row strictly before
issuing the Index Store patch of `available_int` filtered by doc_id, and when
the Index Store patch raises, the handler returns a server error while the
Metadata row keeps the new status (no rollback or compensating write). -/
theorem change_status_meta_before_index
    (s : State) (env : CsEnv) (doc_id status : String) (doc : DocRec) (kb : KbRec)
    (hst : status = "0" ∨ status = "1")
    (hacc : env.accessibleOk = true)
    (hdoc : findDoc s doc_id = some doc)
    (hkb : findKb s doc.kb_id = some kb)
    (hupd : env.updateOk = true) :
    ((change_status s env doc_id status).2.2.get? 3 = some (.statusWrite doc_id status) ∧
      (change_status s env doc_id status).2.2.get? 4 =
        some (.idxPatchAvailable doc_id (statusInt status)))
    ∧ (env.idxRaises = true →
        (change_status s env doc_id status).1 = .serverErr "doc store update failed" ∧
        docStatus (change_status s env doc_id status).2.1 doc_id = some status) := by
  have hv : ¬ (status ≠ "0" ∧ status ≠ "1") := by
    rcases hst with h | h <;> simp [h]
  have hst1 : docStatus (setDocStatus s doc_id status) doc_id = some status := by
    unfold docStatus
    rw [findDoc_setDocStatus, hdoc]
    rfl
  by_cases hr : env.idxRaises
  · simp only [change_status, if_neg hv, hacc, hdoc, hkb, hupd, hr]
    simp [hst1]
  · simp only [change_status, if_neg hv, hacc, hdoc, hkb, hupd]
    simp [hr]

/-- Witness for C3 at the sample state with a raising Index Store. -/
theorem change_status_meta_before_index_witness :
    ((change_status wState ⟨true, true, true⟩ "d1" "0").2.2.get? 3
        = some (.statusWrite "d1" "0") ∧
      (change_status wState ⟨true, true, true⟩ "d1" "0").2.2.get? 4
        = some (.idxPatchAvailable "d1" (statusInt "0")))
    ∧ (true = true →
        (change_status wState ⟨true, true, true⟩ "d1" "0").1
            = .serverErr "doc store update failed" ∧
        docStatus (change_status wState ⟨true, true, true⟩ "d1" "0").2.1 "d1" = some "0") :=
  change_status_meta_before_index wState ⟨true, true, true⟩ "d1" "0" wDoc wKb
    (Or.inl rfl) rfl (by decide) (by decide) rfl

/-- C10: a ChangeStatus request whose status string is neither "0" nor "1" is
rejected with an argument error before any read or write of the Metadata
Store or the Index Store: the state is returned unchanged and the event
trace is empty. -/
theorem change_status_invalid_rejected (s : State) (env : CsEnv) (doc_id status : String)
    (h : status ≠ "0" ∧ status ≠ "1") :
    change_status s env doc_id status
      = (.argErr "Status must be either 0 or 1!", s, []) := by
  simp only [change_status, if_pos h]

/-- Witness for C10 at status string "2". -/
theorem change_status_invalid_rejected_witness :
    change_status wState ⟨true, true, false⟩ "d1" "2"
      = (.argErr "Status must be either 0 or 1!", wState, []) :=
  change_status_invalid_rejected wState ⟨true, true, false⟩ "d1" "2" (by decide)

theorem findDoc_setFileName (s : State) (id nm i : String) :
    findDoc (setFileName s id nm) i = findDoc s i := rfl

theorem findFile_setDocName (s : State) (id nm i : String) :
    findFile (setDocName s id nm) i = findFile s i := rfl

/-- C6: a new name whose file-extension suffix differs (case-insensitively)
from the current one makes rename fail with an argument error and leave the
state unchanged; a successful rename updates the Document row name and also
renames the File record behind the first File-Document link. -/
theorem rename_suffix_and_success
    (s : State) (env : RenEnv) (doc_id newName : String) (doc : DocRec)
    (hacc : env.accessibleOk = true)
    (hdoc : findDoc s doc_id = some doc) :
    (pySuffix (strLower newName) ≠ pySuffix (strLower doc.name) →
      (rename s env doc_id newName).1 = .argErr "The extension of file cant be changed" ∧
      (rename s env doc_id newName).2.1 = s)
    ∧ ((rename s env doc_id newName).1 = .ok →
      findDoc (rename s env doc_id newName).2.1 doc_id = some { doc with name := newName } ∧
      ∀ l ls, linksOf s doc_id = l :: ls →
        ∃ f, findFile s l.file_id = some f ∧
          findFile (rename s env doc_id newName).2.1 l.file_id
            = some { f with name := newName }) := by
  have hacc' : ¬ (env.accessibleOk = false) := by simp [hacc]
  constructor
  · intro hsuf
    simp only [rename, if_neg hacc', hdoc, if_pos hsuf]
    exact ⟨trivial, trivial⟩
  · by_cases hsuf : pySuffix (strLower newName) ≠ pySuffix (strLower doc.name)
    · intro hok
      exfalso
      simp only [rename, if_neg hacc', hdoc, if_pos hsuf] at hok
      simp at hok
    · by_cases hdup : ((queryByName s newName doc.kb_id).any (fun d => d.name == newName)) = true
      · intro hok
        exfalso
        simp only [rename, if_neg hacc', hdoc, if_neg hsuf, if_pos hdup] at hok
        simp at hok
      · by_cases hupd : env.updateOk = false
        · intro hok
          exfalso
          simp only [rename, if_neg hacc', hdoc, if_neg hsuf, if_neg hdup, if_pos hupd] at hok
          simp at hok
        · rcases hl : linksOf s doc_id with _ | ⟨l, ls⟩
          · intro _
            simp only [rename, if_neg hacc', hdoc, if_neg hsuf, if_neg hdup, if_neg hupd, hl]
            constructor
            · rw [findDoc_setDocName, hdoc]
              rfl
            · intro l' ls' h
              cases h
          · rcases hf : findFile s l.file_id with _ | f
            · intro hok
              exfalso
              simp only [rename, if_neg hacc', hdoc, if_neg hsuf, if_neg hdup, if_neg hupd,
                hl, hf] at hok
              simp at hok
            · intro _
              have hfid : f.id = l.file_id := by
                have := List.find?_some hf
                simpa using this
              simp only [rename, if_neg hacc', hdoc, if_neg hsuf, if_neg hdup, if_neg hupd,
                hl, hf]
              constructor
              · rw [findDoc_setFileName, findDoc_setDocName, hdoc]
                rfl
              · intro l' ls' h
                injection h with h1 _
                subst h1
                refine ⟨f, hf, ?_⟩
                rw [hfid, findFile_setFileName, findFile_setDocName, hf]
                simp [hfid]

/-- Witness for C6: renaming "a.pdf" to "b.txt" changes the suffix and is
rejected without touching the state. -/
theorem rename_suffix_and_success_witness :
    (pySuffix (strLower "b.txt") ≠ pySuffix (strLower wDoc.name) →
      (rename wState ⟨true, true⟩ "d1" "b.txt").1
          = .argErr "The extension of file cant be changed" ∧
      (rename wState ⟨true, true⟩ "d1" "b.txt").2.1 = wState)
    ∧ ((rename wState ⟨true, true⟩ "d1" "b.txt").1 = .ok →
      findDoc (rename wState ⟨true, true⟩ "d1" "b.txt").2.1 "d1"
          = some { wDoc with name := "b.txt" } ∧
      ∀ l ls, linksOf wState "d1" = l :: ls →
        ∃ f, findFile wState l.file_id = some f ∧
          findFile (rename wState ⟨true, true⟩ "d1" "b.txt").2.1 l.file_id
            = some { f with name := "b.txt" }) :=
  rename_suffix_and_success wState ⟨true, true⟩ "d1" "b.txt" wDoc (by decide) (by decide)

/-- C7: ChangeParser with the same parser id (case-insensitive) and the same
parser config returns success, leaves the whole state unchanged and issues
no store operation. -/
theorem change_parser_noop
    (s : State) (env : CpEnv) (doc_id parser_id : String) (parser_config : Option String)
    (doc : DocRec)
    (hacc : env.accessibleOk = true)
    (hdoc : findDoc s doc_id = some doc)
    (hid : strLower doc.parser_id = strLower parser_id)
    (hcfg : parser_config = none ∨ parser_config = some doc.parser_config) :
    changeParser s env doc_id parser_id parser_config = (.ok, s, []) := by
  have hacc' : ¬ (env.accessibleOk = false) := by simp [hacc]
  simp only [changeParser, if_neg hacc', hdoc, if_pos (And.intro hid hcfg)]

/-- Witness for C7: resubmitting the stored parser id (with different case)
and the stored config is a no-op. -/
theorem change_parser_noop_witness :
    changeParser wState ⟨true, true, true, some "t1"⟩ "d1" "Naive" (some "cfg")
      = (.ok, wState, []) :=
  change_parser_noop wState ⟨true, true, true, some "t1"⟩ "d1" "Naive" (some "cfg") wDoc
    (by decide) (by decide) (by decide) (Or.inr (by decide))

/-- C1: whatever the outcome of the individual store calls, the per-document
cleanup of the rm handler issues its steps as a prefix of the fixed order:
Tasks deletion first, then the Metadata row deletion, then the
knowledge-base-private File row and the File-Document link deletions, and
the blob removal last of all steps. -/
theorem rmOneDoc_step_order (s : State) (env : RmDocEnv) (doc_id : String) :
    ∃ fid b n k,
      (rmOneDoc s env doc_id).2.2 =
        ([Event.deleteTasks doc_id, Event.deleteDocRow doc_id, Event.deleteFileRow fid,
          Event.deleteF2DLink doc_id, Event.rmBlob b n]).take k := by
  obtain ⟨tf, sa, tdr, rd, fdr, ldr, br⟩ := env
  unfold rmOneDoc
  rcases h1 : findDoc s doc_id with _ | doc
  · exact ⟨"", "", "", 0, rfl⟩
  · cases tf
    · exact ⟨"", "", "", 0, rfl⟩
    · rcases sa with m | ⟨b, n⟩
      · exact ⟨"", "", "", 0, rfl⟩
      · cases tdr
        · rcases rd with m | fl
          · exact ⟨"", b, n, 2, rfl⟩
          · cases fl
            · exact ⟨"", b, n, 2, rfl⟩
            · rcases h6 : linksOf s doc_id with _ | ⟨l, ls⟩
              · exact ⟨"", b, n, 2, rfl⟩
              · cases fdr
                · cases ldr
                  · cases br
                    · exact ⟨l.file_id, b, n, 5, rfl⟩
                    · exact ⟨l.file_id, b, n, 5, rfl⟩
                  · exact ⟨l.file_id, b, n, 4, rfl⟩
                · exact ⟨l.file_id, b, n, 3, rfl⟩
        · exact ⟨"", b, n, 1, rfl⟩

theorem str_append_assoc (a b c : String) : a ++ b ++ c = a ++ (b ++ c) := by
  apply String.ext
  simp [String.data_append]

theorem rmLoop_eq_spec (envf : String → RmDocEnv) (ids : List String) :
    ∀ s errors evs, abortFree envf ids s = true →
      rmLoop envf ids s errors evs
        = (if errors ++ (rmSpec envf ids s).1 = "" then .ok
            else .serverErr (errors ++ (rmSpec envf ids s).1),
          (rmSpec envf ids s).2.1, evs ++ (rmSpec envf ids s).2.2) := by
  induction ids with
  | nil =>
    intro s errors evs _
    simp [rmLoop, rmSpec, String.append_empty]
  | cons id rest ih =>
    intro s errors evs h
    rcases hrm : rmOneDoc s (envf id) id with ⟨o, s', ev⟩
    cases o with
    | abort r =>
      exfalso
      simp only [abortFree, hrm] at h
      cases h
    | raised m =>
      have h' : abortFree envf rest s' = true := by
        simp only [abortFree, hrm] at h
        exact h
      simp only [rmLoop, hrm, rmSpec]
      rw [ih s' (errors ++ m) (evs ++ ev) h']
      rw [str_append_assoc, List.append_assoc]
    | ok =>
      have h' : abortFree envf rest s' = true := by
        simp only [abortFree, hrm] at h
        exact h
      simp only [rmLoop, hrm, rmSpec]
      rw [ih s' errors (evs ++ ev) h']
      rw [String.empty_append, List.append_assoc]

/-- C4 fails as stated: with the first requested document missing, the rm
batch returns the "Document not found!" error immediately instead of
accumulating it — the second document, although fully deletable, is never
processed: no event is issued and the state (its row included) is returned
untouched. -/
theorem rm_batch_aborts_counterexample :
    rmDocs wState true (fun _ => wEnvRm) ["dx", "d1"]
      = (.dataErr "Document not found!", wState, []) ∧
    findDoc (rmDocs wState true (fun _ => wEnvRm) ["dx", "d1"]).2.1 "d1" = some wDoc :=
  ⟨rfl, rfl⟩

/-- C4 amended: the rm batch continues past per-document failures that raise
exceptions — those are concatenated into one joined message, every document
is still visited, and the aggregate is returned as one server error at the
end (success when no exception occurred); per-document failures surfacing as
error results (missing document, missing tenant, Metadata-row removal
reporting failure) instead abort the whole batch. Formally, whenever no
error-result abort occurs, the handler coincides with the best-effort
reference semantics `rmSpec` that always processes every document. -/
theorem rm_batch_best_effort (envf : String → RmDocEnv) (ids : List String) (s : State)
    (h : abortFree envf ids s = true) :
    rmDocs s true envf ids
      = (if (rmSpec envf ids s).1 = "" then .ok else .serverErr (rmSpec envf ids s).1,
        (rmSpec envf ids s).2.1, (rmSpec envf ids s).2.2) := by
  show rmLoop envf ids s "" [] = _
  rw [rmLoop_eq_spec envf ids s "" [] h, String.empty_append]
  rfl

/-- Witness for the amended C4 on the sample state. -/
theorem rm_batch_best_effort_witness :
    rmDocs wState true (fun _ => wEnvRm) ["d1"]
      = (if (rmSpec (fun _ => wEnvRm) ["d1"] wState).1 = "" then .ok
          else .serverErr (rmSpec (fun _ => wEnvRm) ["d1"] wState).1,
        (rmSpec (fun _ => wEnvRm) ["d1"] wState).2.1,
        (rmSpec (fun _ => wEnvRm) ["d1"] wState).2.2) :=
  rm_batch_best_effort (fun _ => wEnvRm) ["d1"] wState (by decide)

theorem kbRmLoop_all_ok (envRemove : String → Except String Bool) (docs : List DocRec) :
    ∀ s evs, (∀ d ∈ docs, envRemove d.id = Except.ok true) →
      ∃ s' evs',
        kbRmLoop envRemove docs s evs = (none, s', evs ++ evs') ∧
        evs'.all isPerDocRowEvent = true ∧
        (∀ d ∈ docs, Event.deleteDocRow d.id ∈ evs') ∧
        s'.tasks = s.tasks ∧ s'.blobs = s.blobs := by
  induction docs with
  | nil =>
    intro s evs _
    exact ⟨s, [], by simp [kbRmLoop], rfl, by simp, rfl, rfl⟩
  | cons d rest ih =>
    intro s evs h
    have hd : envRemove d.id = Except.ok true := h d (List.mem_cons_self d rest)
    have hrest : ∀ d' ∈ rest, envRemove d'.id = Except.ok true :=
      fun d' hd' => h d' (List.mem_cons_of_mem d hd')
    rcases hl : linksOf (delDocRow s d.id) d.id with _ | ⟨l, ls⟩
    · obtain ⟨s', evs', heq, hall, hmem, ht, hb⟩ :=
        ih (delLinks (delDocRow s d.id) d.id)
          (evs ++ [Event.deleteDocRow d.id, Event.deleteF2DLink d.id]) hrest
      refine ⟨s', [Event.deleteDocRow d.id, Event.deleteF2DLink d.id] ++ evs', ?_, ?_, ?_, ht, hb⟩
      · simp only [kbRmLoop, hd, hl]
        rw [heq, List.append_assoc]
      · simp only [List.all_append, hall, Bool.and_true]
        rfl
      · intro d' hd'
        rcases List.mem_cons.mp hd' with heq' | hd''
        · subst heq'
          exact List.mem_append_left _ (by simp)
        · exact List.mem_append_right _ (hmem d' hd'')
    · obtain ⟨s', evs', heq, hall, hmem, ht, hb⟩ :=
        ih (delLinks (delKbFileRow (delDocRow s d.id) l.file_id) d.id)
          (evs ++ [Event.deleteDocRow d.id, Event.deleteFileRow l.file_id,
            Event.deleteF2DLink d.id]) hrest
      refine ⟨s', [Event.deleteDocRow d.id, Event.deleteFileRow l.file_id,
        Event.deleteF2DLink d.id] ++ evs', ?_, ?_, ?_, ht, hb⟩
      · simp only [kbRmLoop, hd, hl]
        rw [heq, List.append_assoc]
      · simp only [List.all_append, hall, Bool.and_true]
        rfl
      · intro d' hd'
        rcases List.mem_cons.mp hd' with heq' | hd''
        · subst heq'
          exact List.mem_append_left _ (by simp)
        · exact List.mem_append_right _ (hmem d' hd'')

/-- C5 fails as stated: deleting the sample KB succeeds and removes the
Document row, yet — unlike the per-document cascade of Delete the claim
requires — it never deletes the Tasks of the document and never removes the
blob: no such event is issued and the Task row and the blob survive in the
final state. -/
theorem kb_rm_no_task_blob_counterexample :
    (kb_rm wState wEnvKbRm "k1").1 = .ok ∧
    ((kb_rm wState wEnvKbRm "k1").2.2.all
        (fun e => !(isDelTasksEvent e) && !(isRmBlobEvent e))) = true ∧
    (kb_rm wState wEnvKbRm "k1").2.1.tasks = wState.tasks ∧
    (kb_rm wState wEnvKbRm "k1").2.1.blobs = wState.blobs ∧
    findDoc (kb_rm wState wEnvKbRm "k1").2.1 "d1" = none :=
  ⟨rfl, rfl, rfl, rfl, rfl⟩

/-- C5 amended: DeleteKnowledgeBase removes, for each Document of the KB,
the Metadata row, the knowledge-base-private File row behind the first link
(when one exists) and the File-Document links — but neither the Tasks nor
the blob of the document — then deletes the KB root folder File row, then
the KB Metadata row, then the Index Store entries of the KB, and finally
drops the tenant-scoped index, in that order. -/
theorem kb_rm_cascade (s : State) (env : KbRmEnv) (kb_id : String) (kb : KbRec)
    (hacc : env.accessibleOk = true)
    (hkb : findKb s kb_id = some kb)
    (hown : env.ownerOk = true)
    (hrem : ∀ d ∈ docsOfKb s kb_id, env.removeDoc d.id = Except.ok true)
    (hdel : env.kbDeleteOk = true) :
    (kb_rm s env kb_id).1 = .ok ∧
    ∃ docEvs,
      (kb_rm s env kb_id).2.2
        = docEvs ++ [Event.deleteKbFolderRow kb.name, Event.deleteKbRow kb_id,
            Event.idxDeleteKb kb.id, Event.dropIdx kb.id] ∧
      docEvs.all isPerDocRowEvent = true ∧
      (∀ d ∈ docsOfKb s kb_id, Event.deleteDocRow d.id ∈ docEvs) ∧
      (kb_rm s env kb_id).2.1.tasks = s.tasks ∧
      (kb_rm s env kb_id).2.1.blobs = s.blobs := by
  obtain ⟨s', evs', heq, hall, hmem, ht, hb⟩ :=
    kbRmLoop_all_ok env.removeDoc (docsOfKb s kb_id) s [] hrem
  have hacc' : ¬ (env.accessibleOk = false) := by simp [hacc]
  have hown' : ¬ (env.ownerOk = false) := by simp [hown]
  have hdel' : ¬ (env.kbDeleteOk = false) := by simp [hdel]
  have hred : kb_rm s env kb_id
      = (.ok,
        dropIdxSt (idxDeleteKbSt (delKbRowSt (delKbFolderRow s' kb.name) kb_id)
          (index_name kb.tenant_id) kb.id) (index_name kb.tenant_id),
        (evs' ++ [Event.deleteKbFolderRow kb.name]) ++ [Event.deleteKbRow kb_id,
          Event.idxDeleteKb kb.id, Event.dropIdx kb.id]) := by
    simp only [kb_rm, if_neg hacc', hkb, if_neg hown', heq, List.nil_append, if_neg hdel']
  refine ⟨by rw [hred], evs', ?_, hall, hmem, by rw [hred]; exact ht, by rw [hred]; exact hb⟩
  rw [hred]
  simp

/-- Witness for the amended C5 on the sample state. -/
theorem kb_rm_cascade_witness :
    (kb_rm wState wEnvKbRm "k1").1 = .ok ∧
    ∃ docEvs,
      (kb_rm wState wEnvKbRm "k1").2.2
        = docEvs ++ [Event.deleteKbFolderRow wKb.name, Event.deleteKbRow "k1",
            Event.idxDeleteKb wKb.id, Event.dropIdx wKb.id] ∧
      docEvs.all isPerDocRowEvent = true ∧
      (∀ d ∈ docsOfKb wState "k1", Event.deleteDocRow d.id ∈ docEvs) ∧
      (kb_rm wState wEnvKbRm "k1").2.1.tasks = wState.tasks ∧
      (kb_rm wState wEnvKbRm "k1").2.1.blobs = wState.blobs :=
  kb_rm_cascade wState wEnvKbRm "k1" wKb (by decide) (by decide) (by decide)
    (fun _ _ => rfl) (by decide)

theorem runOneDoc_trace_shape (s : State) (env : RunDocEnv) (runArg : String) (del : Bool)
    (id : String) :
    ∃ hasDel hasIdx hasEnq : Bool,
      (runOneDoc s env runArg del id).2.2
        = [Event.runInfoWrite id runArg (runArg == runningValue && del)]
          ++ (if hasDel then [Event.deleteTasks id] else [])
          ++ (if hasIdx then [Event.idxDeleteDoc id] else [])
          ++ (if hasEnq then [Event.enqueueTask id] else [])
        ∧ (hasIdx = true → hasDel = true)
        ∧ (hasEnq = true → del = true → hasDel = true) := by
  obtain ⟨t, sa⟩ := env
  simp only [runOneDoc]
  rcases t with _ | tid
  · exact ⟨false, false, false, by simp, by simp, by simp⟩
  · rcases hd : findDoc (setRunInfo s id runArg (runArg == runningValue && del)) id with _ | doc
    · exact ⟨false, false, false, by simp, by simp, by simp⟩
    · cases del
      · cases hr : (runArg == runningValue)
        · exact ⟨false, false, false, by simp [hr], by simp, by simp⟩
        · rcases sa with m | bn
          · exact ⟨false, false, false, by simp [hr], by simp, by simp⟩
          · exact ⟨false, false, true, by simp [hr], by simp, by simp⟩
      · cases hr : (runArg == runningValue)
        · simp only [hr, Bool.false_and]
          cases hidx : indexExist (delTasks (setRunInfo s id runArg false) id) (index_name tid)
          · exact ⟨true, false, false, by simp [hidx, hr], by simp, by simp⟩
          · exact ⟨true, true, false, by simp [hidx, hr], by simp, by simp⟩
        · simp only [hr, Bool.true_and]
          cases hidx : indexExist (delTasks (setRunInfo s id runArg true) id) (index_name tid)
          · rcases sa with m | bn
            · exact ⟨true, false, false, by simp [hidx, hr], by simp, by simp⟩
            · exact ⟨true, false, true, by simp [hidx, hr], by simp, by simp⟩
          · rcases sa with m | bn
            · exact ⟨true, true, false, by simp [hidx, hr], by simp, by simp⟩
            · exact ⟨true, true, true, by simp [hidx, hr], by simp, by simp⟩

theorem runOneDoc_block_cleared (s : State) (env : RunDocEnv) (runArg : String) (id : String) :
    clearedBeforeEnqueue ((runOneDoc s env runArg true id).2.2.filter (relEvent id)) = true := by
  obtain ⟨hasDel, hasIdx, hasEnq, htr, hdi, hde⟩ :=
    runOneDoc_trace_shape s env runArg true id
  rw [htr]
  cases hasDel
  · cases hasIdx
    · cases hasEnq
      · rfl
      · exact absurd (hde rfl rfl) (by simp)
    · exact absurd (hdi rfl) (by simp)
  · cases hasIdx <;> cases hasEnq <;>
      simp [relEvent, clearedBeforeEnqueue, delsBeforeEnqs, isEnqEvent, isDelTasksEvent]

theorem runOneDoc_filter_other (s : State) (env : RunDocEnv) (runArg : String) (del : Bool)
    (j id : String) (hne : j ≠ id) :
    (runOneDoc s env runArg del j).2.2.filter (relEvent id) = [] := by
  obtain ⟨hasDel, hasIdx, hasEnq, htr, _, _⟩ :=
    runOneDoc_trace_shape s env runArg del j
  rw [htr]
  have hb : (j == id) = false := by simp [hne]
  cases hasDel <;> cases hasIdx <;> cases hasEnq <;> simp [relEvent, hb]

theorem runLoop_filter_not_mem (envf : String → RunDocEnv) (runArg : String) (del : Bool)
    (id : String) :
    ∀ ids s evs, id ∉ ids →
      (runLoop envf runArg del ids s evs).2.2.filter (relEvent id)
        = evs.filter (relEvent id) := by
  intro ids
  induction ids with
  | nil => intro s evs _; rfl
  | cons j rest ih =>
    intro s evs hmem
    have hne : j ≠ id := fun h => hmem (h ▸ List.mem_cons_self j rest)
    rcases hro : runOneDoc s (envf j) runArg del j with ⟨o, s', ev⟩
    have hev : ev.filter (relEvent id) = [] := by
      have h0 := runOneDoc_filter_other s (envf j) runArg del j id hne
      rw [hro] at h0
      exact h0
    cases o with
    | some r =>
      simp only [runLoop, hro]
      rw [List.filter_append, hev, List.append_nil]
    | none =>
      simp only [runLoop, hro]
      rw [ih s' (evs ++ ev) (fun h => hmem (List.mem_cons_of_mem j h)),
        List.filter_append, hev, List.append_nil]

theorem runLoop_cleared (envf : String → RunDocEnv) (runArg : String) (id : String) :
    ∀ ids s evs, ids.Nodup → id ∈ ids → evs.filter (relEvent id) = [] →
      clearedBeforeEnqueue
        ((runLoop envf runArg true ids s evs).2.2.filter (relEvent id)) = true := by
  intro ids
  induction ids with
  | nil => intro s evs _ hmem _; cases hmem
  | cons j rest ih =>
    intro s evs hnd hmem hevs
    rcases hro : runOneDoc s (envf j) runArg true j with ⟨o, s', ev⟩
    by_cases hj : j = id
    · subst hj
      have hblock : clearedBeforeEnqueue (ev.filter (relEvent j)) = true := by
        have h0 := runOneDoc_block_cleared s (envf j) runArg j
        rw [hro] at h0
        exact h0
      have hrest : j ∉ rest := (List.nodup_cons.mp hnd).1
      cases o with
      | some r =>
        simp only [runLoop, hro]
        rw [List.filter_append, hevs, List.nil_append]
        exact hblock
      | none =>
        simp only [runLoop, hro]
        rw [runLoop_filter_not_mem envf runArg true j rest s' (evs ++ ev) hrest,
          List.filter_append, hevs, List.nil_append]
        exact hblock
    · have hev : ev.filter (relEvent id) = [] := by
        have h0 := runOneDoc_filter_other s (envf j) runArg true j id hj
        rw [hro] at h0
        exact h0
      have hmem' : id ∈ rest := by
        rcases List.mem_cons.mp hmem with h | h
        · exact absurd h.symm hj
        · exact h
      cases o with
      | some r =>
        simp only [runLoop, hro]
        rw [List.filter_append, hevs, hev]
        rfl
      | none =>
        simp only [runLoop, hro]
        exact ih s' (evs ++ ev) (List.nodup_cons.mp hnd).2 hmem'
          (by rw [List.filter_append, hevs, hev]; rfl)

/-- C2: in Run with desiredRun RUNNING and clearHistory, for every requested
document id, every Task deletion and Index Store deletion for that id is
observably issued before any enqueue for that id (nothing but enqueues
follows an enqueue among its events, and an enqueue is always preceded by
its Task deletion); moreover, whenever the tenant resolves, the document
exists and the tenant index exists, the Index Store deletion for the
document is indeed issued. -/
theorem run_clear_before_enqueue (s : State) (envf : String → RunDocEnv)
    (ids : List String) (id : String) (hnd : ids.Nodup) (hmem : id ∈ ids) :
    clearedBeforeEnqueue
      (((runDocs s true envf runningValue true ids).2.2).filter (relEvent id)) = true
    ∧ (∀ s' env tid doc, env.tenant = some tid →
        findDoc (setRunInfo s' id runningValue true) id = some doc →
        indexExist (delTasks (setRunInfo s' id runningValue true) id) (index_name tid) = true →
        Event.idxDeleteDoc id ∈ (runOneDoc s' env runningValue true id).2.2) := by
  constructor
  · exact runLoop_cleared envf runningValue id ids s [] hnd hmem rfl
  · intro s' env tid doc ht hd hidx
    obtain ⟨t, sa⟩ := env
    simp only at ht
    subst ht
    rcases sa with m | bn
    all_goals
      simp [runOneDoc, hd, hidx]

/-- Witness for C2 on the sample state with one document. -/
theorem run_clear_before_enqueue_witness :
    clearedBeforeEnqueue
      (((runDocs wState true (fun _ => wEnvRun) runningValue true ["d1"]).2.2).filter
        (relEvent "d1")) = true
    ∧ (∀ s' env tid doc, env.tenant = some tid →
        findDoc (setRunInfo s' "d1" runningValue true) "d1" = some doc →
        indexExist (delTasks (setRunInfo s' "d1" runningValue true) "d1")
            (index_name tid) = true →
        Event.idxDeleteDoc "d1" ∈ (runOneDoc s' env runningValue true "d1").2.2) :=
  run_clear_before_enqueue wState (fun _ => wEnvRun) ["d1"] "d1" (by decide) (by decide)

/-- C8: when a KnowledgeBase update changes pagerank to 0 from a non-zero
stored value, the Index Store receives the field-removal patch and no patch
storing a pagerank value; when it changes pagerank to a positive value, the
Index Store receives the value-setting patch and no removal patch. -/
theorem kb_update_pagerank_patch
    (s : State) (env : KbUpdEnv) (kb_id : String) (req : KbUpdReq) (kb : KbRec)
    (hacc : env.accessibleOk = true) (hown : env.ownerOk = true)
    (hkb : findKb s kb_id = some kb) (htag : env.tagBlocked = false)
    (hdup : ¬ (strLower req.name ≠ strLower kb.name ∧ env.dupGtOne = true))
    (hupd : env.updateOk = true) :
    (req.pagerank = some 0 → kb.pagerank ≠ 0 →
      (kb_update s env kb_id req).2.2
          = [Event.kbRowUpdate kb_id, Event.idxRemovePagerank kb.id] ∧
      ∀ v, Event.idxPatchPagerank kb.id v ∉ (kb_update s env kb_id req).2.2)
    ∧ (∀ p, req.pagerank = some p → 0 < p → kb.pagerank ≠ p →
        (kb_update s env kb_id req).2.2
            = [Event.kbRowUpdate kb_id, Event.idxPatchPagerank kb.id p] ∧
        Event.idxRemovePagerank kb.id ∉ (kb_update s env kb_id req).2.2) := by
  have hacc' : ¬ (env.accessibleOk = false) := by simp [hacc]
  have hown' : ¬ (env.ownerOk = false) := by simp [hown]
  have htag' : ¬ (env.tagBlocked = true) := by simp [htag]
  have hupd' : ¬ (env.updateOk = false) := by simp [hupd]
  constructor
  · intro hp hnz
    have hch : kb.pagerank ≠ req.pagerank.getD 0 := by
      rw [hp]
      simpa using hnz
    have hpos : ¬ (req.pagerank.getD 0 > 0) := by
      rw [hp]
      simp
    simp only [kb_update, if_neg hacc', if_neg hown', hkb, if_neg htag', if_neg hdup,
      if_neg hupd', if_pos hch, if_neg hpos]
    constructor
    · rfl
    · intro v
      simp
  · intro p hp hpos hne
    have hch : kb.pagerank ≠ req.pagerank.getD 0 := by
      rw [hp]
      simpa using hne
    have hpos' : req.pagerank.getD 0 > 0 := by
      rw [hp]
      simpa using hpos
    simp only [kb_update, if_neg hacc', if_neg hown', hkb, if_neg htag', if_neg hdup,
      if_neg hupd', if_pos hch, if_pos hpos']
    constructor
    · rw [hp]
      rfl
    · simp

/-- Witness for C8: setting the sample KB pagerank from 5 to 0. -/
theorem kb_update_pagerank_patch_witness :
    ((⟨"K1", "naive", some 0⟩ : KbUpdReq).pagerank = some 0 → wKb.pagerank ≠ 0 →
      (kb_update wState ⟨true, true, false, false, true⟩ "k1" ⟨"K1", "naive", some 0⟩).2.2
          = [Event.kbRowUpdate "k1", Event.idxRemovePagerank wKb.id] ∧
      ∀ v, Event.idxPatchPagerank wKb.id v
          ∉ (kb_update wState ⟨true, true, false, false, true⟩ "k1" ⟨"K1", "naive", some 0⟩).2.2)
    ∧ (∀ p, (⟨"K1", "naive", some 0⟩ : KbUpdReq).pagerank = some p → 0 < p →
        wKb.pagerank ≠ p →
        (kb_update wState ⟨true, true, false, false, true⟩ "k1" ⟨"K1", "naive", some 0⟩).2.2
            = [Event.kbRowUpdate "k1", Event.idxPatchPagerank wKb.id p] ∧
        Event.idxRemovePagerank wKb.id
            ∉ (kb_update wState ⟨true, true, false, false, true⟩ "k1"
                ⟨"K1", "naive", some 0⟩).2.2) :=
  kb_update_pagerank_patch wState ⟨true, true, false, false, true⟩ "k1"
    ⟨"K1", "naive", some 0⟩ wKb (by decide) (by decide) (by decide) (by decide)
    (by decide) (by decide)

theorem sweeperLoop_exit (stop : Nat → Bool) (tick : Nat → TickOutcome) :
    ∀ fuel i k, (sweeperLoop stop tick fuel i).1 = some k →
      stop k = true ∧ i ≤ k ∧ ∀ j, i ≤ j → j < k → stop j = false := by
  intro fuel
  induction fuel with
  | zero =>
    intro i k h
    simp [sweeperLoop] at h
  | succ fuel ih =>
    intro i k h
    by_cases hs : stop i = true
    · simp only [sweeperLoop, if_pos hs] at h
      have hk : i = k := by simpa using h
      subst hk
      exact ⟨hs, le_refl i, fun j h1 h2 => absurd h2 (by omega)⟩
    · simp only [sweeperLoop, if_neg hs] at h
      obtain ⟨h1, h2, h3⟩ := ih (i + 1) k h
      refine ⟨h1, by omega, fun j hj1 hj2 => ?_⟩
      by_cases hji : j = i
      · subst hji
        simpa using hs
      · exact h3 j (by omega) hj2

theorem sweeperLoop_runs (stop : Nat → Bool) (tick : Nat → TickOutcome) :
    ∀ fuel i n, n < fuel → (∀ j, i ≤ j → j ≤ i + n → stop j = false) →
      SweepEvent.updateProgress (i + n) ∈ (sweeperLoop stop tick fuel i).2 := by
  intro fuel
  induction fuel with
  | zero =>
    intro i n h _
    omega
  | succ fuel ih =>
    intro i n hn hstop
    have hsi : stop i = false := hstop i (le_refl i) (Nat.le_add_right i n)
    have hs' : ¬ (stop i = true) := by simp [hsi]
    simp only [sweeperLoop, if_neg hs']
    cases n with
    | zero =>
      cases htk : tick i <;> simp
    | succ m =>
      have hmem : SweepEvent.updateProgress (i + 1 + m) ∈ (sweeperLoop stop tick fuel (i + 1)).2 := by
        apply ih (i + 1) m (by omega)
        intro j hj1 hj2
        exact hstop j (by omega) (by omega)
      have heq : i + 1 + m = i + (m + 1) := by omega
      rw [heq] at hmem
      cases htk : tick i <;> simp [hmem]

/-- C9: the Sweeper loop of `ragflow_server.py` exits only at an iteration
whose stop-event check is set — never because of a failing tick: as long as
the stop signal stays unset (and fuel remains), every iteration issues its
UpdateProgress call, including every iteration after a tick whose call
raised, since the exception is logged and swallowed inside the loop body. -/
theorem sweeper_loop_exits_only_on_stop (stop : Nat → Bool) (tick : Nat → TickOutcome)
    (fuel : Nat) :
    (∀ k, (sweeperLoop stop tick fuel 0).1 = some k →
      stop k = true ∧ ∀ j, j < k → stop j = false)
    ∧ (∀ i, i < fuel → (∀ j, j ≤ i → stop j = false) →
        SweepEvent.updateProgress i ∈ (sweeperLoop stop tick fuel 0).2) := by
  constructor
  · intro k h
    obtain ⟨h1, _, h3⟩ := sweeperLoop_exit stop tick fuel 0 k h
    exact ⟨h1, fun j hj => h3 j (Nat.zero_le j) hj⟩
  · intro i hi hstop
    have hmem := sweeperLoop_runs stop tick fuel 0 i hi (fun j h1 h2 => hstop j (by omega))
    simpa using hmem

/-- Witness for C9: with every tick raising and the stop signal first set at
iteration 2, iteration 1 still issues its UpdateProgress call. -/
theorem sweeper_loop_exits_only_on_stop_witness :
    SweepEvent.updateProgress 1
      ∈ (sweeperLoop (fun i => decide (i = 2)) (fun _ => TickOutcome.raises "boom") 5 0).2 :=
  (sweeper_loop_exits_only_on_stop (fun i => decide (i = 2))
    (fun _ => TickOutcome.raises "boom") 5).2 1 (by decide) (by decide)

end Ragflow
